import Mathlib

/-!
Shallow embedding of the `graceful` Go package: a process lifecycle
orchestrator (`Start`), a concurrent fan-out helper (`Multi`), a
single-slot shutdown-request channel (`Shutdown`), option parsing
(`parseOptions`) and exit-reason rendering (`ToPrintable`).

Go `error` values are modelled as `Option GErr` (with `none` for the nil
error), goroutine timing as explicit completion times (`Nat`), hanging
steps as `Option Nat` durations with `none` meaning the step never
returns, and a function that can block forever returns `Option _` with
`none` for divergence.
-/

namespace Graceful

/-- A concrete non-nil Go error value: either a message built with
`fmt.Errorf`, `context.DeadlineExceeded`, `context.Canceled`, or an
opaque user-supplied error identified by a number. -/
inductive GErr where
  | msg : String → GErr
  | deadlineExceeded : GErr
  | canceled : GErr
  | user : Nat → GErr
deriving DecidableEq

/-- An OS signal value (`os.Signal`). -/
inductive Sig where
  | interrupt : Sig
  | sigint : Sig
  | sigterm : Sig
  | other : Nat → Sig
deriving DecidableEq

/-- The payload stored in an option's `value any` field. -/
inductive Payload where
  | dur : Int → Payload
  | sigs : List Sig → Payload
  | other : Payload
deriving DecidableEq

/-- The `option` struct: an option code together with its payload. -/
structure option where
  code : Nat
  value : Payload
deriving DecidableEq

/-- The `config` struct resolved from options. Durations are `int64`
nanosecond counts in Go, modelled as `Int`; `0` means unlimited. -/
structure Config where
  shutdownTimeout : Int := 0
  startupTimeout : Int := 0
  signals : List Sig
deriving DecidableEq

def optionStartupTimeout : Nat := 1
def optionShutdownTimeout : Nat := 2
def optionSignals : Nat := 10

/-- The default signal set installed by `Start` before parsing options. -/
def defaultSignals : List Sig := [Sig.interrupt, Sig.sigint, Sig.sigterm]

/-- `parseOptions` from the source: folds the option list into the
config, returning the first validation or cast error encountered. -/
def parseOptions (cfg : Config) (opts : List option) : Except GErr Config :=
  match opts with
  | [] => .ok cfg
  | o :: rest =>
    if o.code = optionStartupTimeout then
      match o.value with
      | .dur v =>
        if v < 1 then .error (.msg "startup timeout must be positive")
        else parseOptions { cfg with startupTimeout := v } rest
      | _ => .error (.msg "failed to cast StartupTimeout to time.Duration")
    else if o.code = optionShutdownTimeout then
      match o.value with
      | .dur v =>
        if v < 1 then .error (.msg "shutdown timeout must be positive")
        else parseOptions { cfg with shutdownTimeout := v } rest
      | _ => .error (.msg "failed to cast StartupTimeout to time.Duration")
    else if o.code = optionSignals then
      match o.value with
      | .sigs s => parseOptions { cfg with signals := cfg.signals ++ s } rest
      | _ => .error (.msg "failed to cast signals")
    else parseOptions cfg rest

/-- One send on the single-slot runtime-error channel `rte`
(capacity 1): `Shutdown(err)` does `select { case rte <- err: default: }`,
so the value is stored exactly when the slot is empty and dropped
otherwise. The channel state is `none` when empty and `some e` when the
value `e` (a possibly-nil error) is pending. -/
def Shutdown (st : Option (Option GErr)) (e : Option GErr) : Option (Option GErr) :=
  match st with
  | none => some e
  | some _ => st

/-- A simulated step (`Func`): how long it runs before returning
(`none` = it never returns) and the error it returns when it does. -/
structure StepSim where
  dur : Option Nat
  res : Option GErr
deriving DecidableEq

/-- The single send performed by the startup goroutine: it runs the
startup functions sequentially, sends the first non-nil error and stops,
or sends nil after the last one. Returns the send's (time, value), or
`none` when some step on that path never returns (no send ever). `now`
is the time at which the goroutine reaches the head step. -/
def startupSend (fns : List StepSim) (now : Nat) : Option (Nat × Option GErr) :=
  match fns with
  | [] => some (now, none)
  | f :: rest =>
    match f.dur with
    | none => none
    | some d =>
      match f.res with
      | some e => some (now + d, some e)
      | none => startupSend rest (now + d)

/-- How many startup functions the startup goroutine ever invokes: it
stops after the first step that errors or hangs. -/
def startupInvoked (fns : List StepSim) : Nat :=
  match fns with
  | [] => 0
  | f :: rest =>
    match f.dur with
    | none => 1
    | some _ =>
      match f.res with
      | some _ => 1
      | none => 1 + startupInvoked rest

/-- The value `Start` records as `er.ErrStartup`: the select between the
goroutine's send on `fnErrs` and `stCtx.Done()`. With `T ≤ 0` the
context has no deadline, so a missing send blocks forever (`none`). -/
def startupOutcome (T : Int) (fns : List StepSim) : Option (Option GErr) :=
  match startupSend fns 0 with
  | some (t, v) => if 0 < T ∧ T ≤ (t : Int) then some (some .deadlineExceeded) else some v
  | none => if 0 < T then some (some .deadlineExceeded) else none

/-- A simulated shutdown step: duration (`none` = never returns) and
the error value it sends on `fnErrs`. -/
structure SdStep where
  dur : Option Nat
  res : Option GErr
deriving DecidableEq

/-- The sends of the single shutdown goroutine, which runs the shutdown
functions sequentially: each completion is timestamped by the cumulative
running time so far; a hanging step produces no further sends. -/
def workerTrace (steps : List SdStep) (now : Nat) : List (Nat × Option GErr) :=
  match steps with
  | [] => []
  | s :: rest =>
    match s.dur with
    | none => []
    | some d => (now + d, s.res) :: workerTrace rest (now + d)

/-- The `Shutdown:` labelled collection loop of `Start`: `m` iterations
remain; each iteration selects between the next completion on `fnErrs`
and `sdCtx.Done()` (which fires at time `T` when `T > 0`). Non-nil
errors are appended to `acc`; on timeout `sdCtx.Err()` is appended and
the loop breaks. Returns `none` when the loop blocks forever (no
deadline and a step never reports). -/
def collectShutdown (m : Nat) (trace : List (Nat × Option GErr)) (T : Int)
    (acc : List (Option GErr)) : Option (List (Option GErr)) :=
  match m with
  | 0 => some acc
  | m' + 1 =>
    match trace with
    | [] =>
      if 0 < T then some (acc ++ [some .deadlineExceeded]) else none
    | (t, e) :: rest =>
      if 0 < T ∧ T ≤ (t : Int) then some (acc ++ [some .deadlineExceeded])
      else collectShutdown m' rest T (if e.isSome then acc ++ [e] else acc)

/-- The whole shutdown phase of `Start` on `steps` with shutdown timeout
`T`: the sequential worker's trace drained by the collection loop. -/
def shutdownPhase (steps : List SdStep) (T : Int) : Option (List (Option GErr)) :=
  collectShutdown steps.length (workerTrace steps 0) T []

/-- The event that ends the `AwaitingTrigger` select: either an OS
signal delivery or a value from the runtime-error channel `rte` (the
value sent by `Shutdown`, possibly nil). -/
inductive Trigger where
  | osSig : Sig → Trigger
  | runtime : Option GErr → Trigger
deriving DecidableEq

/-- The `ExitReason` struct. Fields are Go interface values, nil-able,
so each is an `Option`; `ErrsShutdown` is a `[]error` whose elements
are themselves possibly-nil error values. -/
structure ExitReason where
  osSignal : Option Sig := none
  errStartup : Option GErr := none
  errRuntime : Option GErr := none
  errsShutdown : List (Option GErr) := []
deriving DecidableEq

/-- Result of one `Start` run, instrumented with how many startup
functions were invoked and whether the shutdown phase was entered. -/
structure StartOutcome where
  er : ExitReason
  startupRan : Nat
  shutdownRan : Bool
deriving DecidableEq

/-- The `Start` orchestrator: parse options (failure becomes the
startup error and nothing runs), run the startup phase, record the
trigger, then run the shutdown phase. `none` models `Start` blocking
forever. -/
def start (startupFns : List StepSim) (shutdownFns : List SdStep)
    (opts : List option) (trig : Trigger) : Option StartOutcome :=
  match parseOptions { signals := defaultSignals } opts with
  | .error e => some ⟨{ errStartup := some e }, 0, false⟩
  | .ok cfg =>
    match startupOutcome cfg.startupTimeout startupFns with
    | none => none
    | some (some e) => some ⟨{ errStartup := some e }, startupInvoked startupFns, false⟩
    | some none =>
      let base : ExitReason :=
        match trig with
        | .osSig s => { osSignal := some s }
        | .runtime e => { errRuntime := e }
      match shutdownPhase shutdownFns cfg.shutdownTimeout with
      | none => none
      | some errs =>
        some ⟨{ base with errsShutdown := errs }, startupInvoked startupFns, true⟩

/-- `error.Error()` for the concrete errors of the model. -/
def errText : GErr → String
  | .msg s => s
  | .deadlineExceeded => "context deadline exceeded"
  | .canceled => "context canceled"
  | .user n => "user error " ++ toString n

/-- `os.Signal.String()` for the model's signals. -/
def sigText : Sig → String
  | .interrupt => "interrupt"
  | .sigint => "interrupt"
  | .sigterm => "terminated"
  | .other n => "signal " ++ toString n

/-- The `ExitReasonPrintable` struct. -/
structure ExitReasonPrintable where
  osSignal : String
  errStartup : String
  errRuntime : String
  errsShutdown : List String
deriving DecidableEq

/-- The rendering loop of `ToPrintable` over `ErrsShutdown`: it calls
`e.Error()` on every element unguarded, which panics on a nil element —
modelled by returning `none` in that case. -/
def renderErrs : List (Option GErr) → Option (List String)
  | [] => some []
  | e :: rest =>
    match e with
    | none => none
    | some x => (renderErrs rest).map (fun l => errText x :: l)

/-- `ToPrintable`: the scalar fields are nil-guarded; the shutdown list
goes through the unguarded `renderErrs` loop. -/
def ToPrintable (er : ExitReason) : Option ExitReasonPrintable :=
  match renderErrs er.errsShutdown with
  | none => none
  | some l =>
    some { osSignal := (er.osSignal.map sigText).getD ""
           errStartup := (er.errStartup.map errText).getD ""
           errRuntime := (er.errRuntime.map errText).getD ""
           errsShutdown := l }

/-- The loop of the step returned by `Multi`, instrumented with the
number of completions it consumed: `k` iterations remain, `evs` are the
completions still to arrive on `errCh` in receipt order (each
timestamped), `cancelT` is the time at which `ctx.Done()` fires (`none`
= the context is never canceled), `cerr` is the value of `ctx.Err()`
once canceled, and `err` is the first non-nil error seen so far.
Returns `none` when the loop blocks forever. -/
def multiLoop (cerr : GErr) (k : Nat) (evs : List (Nat × Option GErr))
    (cancelT : Option Int) (err : Option GErr) : Option (Option GErr × Nat) :=
  match k with
  | 0 => some (err, 0)
  | k' + 1 =>
    match evs with
    | [] =>
      match cancelT with
      | some _ => some (some cerr, 0)
      | none => none
    | (t, e) :: rest =>
      match cancelT with
      | some T =>
        if (t : Int) < T then
          (multiLoop cerr k' rest cancelT
            (if err = none ∧ e ≠ none then e else err)).map (fun p => (p.1, p.2 + 1))
        else some (some cerr, 0)
      | none =>
        (multiLoop cerr k' rest none
          (if err = none ∧ e ≠ none then e else err)).map (fun p => (p.1, p.2 + 1))

/-- Modelled from the spec: the claimed shutdown phase in which `Start`
spawns one background worker per shutdown step, so each step's
completion time is its own duration rather than a cumulative sum, and
completions arrive on the shared channel in an arbitrary receipt order
given by `order` (a permutation of the step indices). The collection
loop itself is the one from the source. This definition exists only to
compare the claim's reading against `shutdownPhase`. -/
def concurrentShutdownSpec (steps : List SdStep) (T : Int) (order : List Nat) :
    Option (List (Option GErr)) :=
  collectShutdown steps.length
    (order.filterMap fun i =>
      (steps.get? i).bind fun s => s.dur.map fun d => (d, s.res))
    T []

/-- The first non-nil error of a list of completion results, used to
state what the `Multi` loop's error accumulator computes. -/
def firstErr : List (Option GErr) → Option GErr
  | [] => none
  | e :: rest =>
    match e with
    | some x => some x
    | none => firstErr rest

/-- Every completion event in the list is received strictly before the
cancellation time `T`. -/
def allBeforeB (T : Int) : List (Nat × Option GErr) → Bool
  | [] => true
  | (t, _) :: rest => decide (((t : Nat) : Int) < T) && allBeforeB T rest

/-- The next completion event, if any, does not arrive before time `T`
(so cancellation at `T` is observed first). -/
def stallHeadB (T : Int) : List (Nat × Option GErr) → Bool
  | [] => true
  | (t, _) :: _ => decide (T ≤ ((t : Nat) : Int))

/-- Total running time of a list of shutdown steps, meaningful when all
durations are finite. -/
def durSum : List SdStep → Nat
  | [] => 0
  | s :: rest => s.dur.getD 0 + durSum rest

/-- Starting at time `now`, every step in the list returns a non-nil
error and its cumulative completion time stays strictly below the
deadline `T`. -/
def reportsBeforeB (now : Nat) (T : Int) : List SdStep → Bool
  | [] => true
  | s :: rest =>
    match s.dur, s.res with
    | some d, some _ => decide (((now + d : Nat) : Int) < T) && reportsBeforeB (now + d) T rest
    | _, _ => false

/-- Starting at time `now`, the next step (there must be one) either
never returns or completes no earlier than the deadline `T`, so the
collector's timeout fires first. -/
def stallsB (now : Nat) (T : Int) : List SdStep → Bool
  | [] => false
  | s :: _ =>
    match s.dur with
    | none => true
    | some d => decide (T ≤ ((now + d : Nat) : Int))

/-- Starting at time `now`, every step returns, and when a deadline is
configured (`T > 0`) each cumulative completion time stays strictly
below it. -/
def runsAllB (now : Nat) (T : Int) : List SdStep → Bool
  | [] => true
  | s :: rest =>
    match s.dur with
    | none => false
    | some d =>
      (decide (T ≤ 0) || decide (((now + d : Nat) : Int) < T)) && runsAllB (now + d) T rest

/-- Modelled from the claim under test: the claimed `ExitReason`
invariant — either a non-nil startup error with every other field
empty, or no startup error and exactly one of the OS signal or the
runtime error set. Used only to exhibit a run of `start` violating
it. -/
def exitClaimB (er : ExitReason) : Bool :=
  (er.errStartup.isSome && er.osSignal.isNone && er.errRuntime.isNone
    && er.errsShutdown.isEmpty)
  || (er.errStartup.isNone && (er.osSignal.isSome != er.errRuntime.isSome))

theorem Shutdown_foldl_pending (cs : List (Option GErr)) :
    ∀ v : Option GErr, cs.foldl Shutdown (some v) = some v := by
  induction cs with
  | nil => intro v; rfl
  | cons c cs ih => intro v; simpa [Shutdown] using ih v

/-- C6: `Shutdown` is non-blocking and first-wins — a call stores its
error into the single-slot channel exactly when no value is pending,
every call made while a value is pending leaves the slot unchanged, and
over any sequence of calls starting from the empty slot the retained
value is the first call's argument (at most one value, `Option` slot,
is ever retained). -/
theorem Shutdown_first_wins :
    (∀ e : Option GErr, Shutdown none e = some e)
    ∧ (∀ (st : Option (Option GErr)) (e : Option GErr), st ≠ none → Shutdown st e = st)
    ∧ (∀ calls : List (Option GErr), calls.foldl Shutdown none = calls.head?) := by
  refine ⟨fun e => rfl, fun st e hst => ?_, fun calls => ?_⟩
  · cases st with
    | none => exact absurd rfl hst
    | some v => rfl
  · cases calls with
    | nil => rfl
    | cons c cs => simpa [Shutdown] using Shutdown_foldl_pending cs c

/-- Witness for C6 at concrete inputs: a pending value survives a later
send, and a three-call sequence retains exactly the first value. -/
theorem Shutdown_first_wins_witness :
    Shutdown (some (some (GErr.user 1))) (some (GErr.user 2)) = some (some (GErr.user 1))
    ∧ [some (GErr.user 3), none, some (GErr.user 4)].foldl Shutdown none
        = some (some (GErr.user 3)) :=
  ⟨Shutdown_first_wins.2.1 _ _ (by decide), Shutdown_first_wins.2.2 _⟩

/-- C9: the step built by `Multi` from zero functions runs its
collection loop zero times, so for every context — canceled, expired or
live — it returns the nil error immediately, not the context's error. -/
theorem Multi_zero_funcs (cerr : GErr) (evs : List (Nat × Option GErr))
    (cancelT : Option Int) :
    multiLoop cerr 0 evs cancelT none = some (none, 0) := rfl

theorem firstErr_eq_head_filterMap :
    ∀ l : List (Option GErr), firstErr l = (l.filterMap id).head? := by
  intro l
  induction l with
  | nil => rfl
  | cons e rest ih =>
    cases e with
    | none => simpa [firstErr] using ih
    | some x => simp [firstErr]

theorem multiLoop_no_cancel (cerr : GErr) :
    ∀ (evs : List (Nat × Option GErr)) (err : Option GErr),
      multiLoop cerr evs.length evs none err
        = some ((if err.isSome then err else firstErr (evs.map Prod.snd)), evs.length) := by
  intro evs
  induction evs with
  | nil => intro err; cases err <;> rfl
  | cons ev rest ih =>
    intro err
    obtain ⟨t, e⟩ := ev
    show (multiLoop cerr rest.length rest none
        (if err = none ∧ e ≠ none then e else err)).map (fun p => (p.1, p.2 + 1)) = _
    rw [ih]
    cases err with
    | some x => simp [firstErr]
    | none =>
      cases e with
      | some y => simp [firstErr]
      | none => simp [firstErr]

/-- C4: with a never-canceled context, the `Multi` loop over any
receipt order of the K composed steps' results consumes all K
completions (it returns only after K receipts) and returns the first
non-nil error in completion order — nil when every step succeeded; in
particular when exactly one step fails it returns exactly that step's
error, whatever the completion order. -/
theorem Multi_first_error (cerr : GErr) (results : List (Option GErr))
    (evs : List (Nat × Option GErr)) (hperm : (evs.map Prod.snd).Perm results) :
    multiLoop cerr results.length evs none none
      = some (firstErr (evs.map Prod.snd), evs.length)
    ∧ ∀ e : GErr, results.filterMap id = [e] → firstErr (evs.map Prod.snd) = some e := by
  have hlen : evs.length = results.length := by simpa using hperm.length_eq
  constructor
  · rw [← hlen]
    simpa using multiLoop_no_cancel cerr evs none
  · intro e he
    have h1 : (evs.map Prod.snd).filterMap id = [e] := by
      have h2 := List.Perm.filterMap id hperm
      rw [he] at h2
      exact List.perm_singleton.mp h2
    rw [firstErr_eq_head_filterMap, h1]
    rfl

/-- Witness for C4: two steps, the failing one completing first; the
loop consumes both completions and returns the single failure. -/
theorem Multi_first_error_witness :
    multiLoop GErr.canceled 2 [(0, some (GErr.user 1)), (1, none)] none none
      = some (some (GErr.user 1), 2) :=
  (Multi_first_error GErr.canceled [none, some (GErr.user 1)]
    [(0, some (GErr.user 1)), (1, none)] (by decide)).1

theorem multiLoop_cancel_aux (cerr : GErr) (T : Int) :
    ∀ (pre post : List (Nat × Option GErr)) (k : Nat) (err : Option GErr),
      pre.length < k → allBeforeB T pre = true → stallHeadB T post = true →
      multiLoop cerr k (pre ++ post) (some T) err = some (some cerr, pre.length) := by
  intro pre
  induction pre with
  | nil =>
    intro post k err hk hpre hpost
    match k, hk with
    | k' + 1, _ =>
      cases post with
      | nil => rfl
      | cons ev rest =>
        obtain ⟨t, e⟩ := ev
        have ht : T ≤ (t : Int) := by simpa [stallHeadB] using hpost
        show (if (t : Int) < T then _ else some (some cerr, 0)) = some (some cerr, 0)
        rw [if_neg (not_lt.mpr ht)]
  | cons ev pre' ih =>
    intro post k err hk hpre hpost
    obtain ⟨t, e⟩ := ev
    match k, hk with
    | k' + 1, hk =>
      have ht : (t : Int) < T := by
        have h2 := hpre
        simp [allBeforeB, Bool.and_eq_true] at h2
        exact h2.1
      have hrest : allBeforeB T pre' = true := by
        have h2 := hpre
        simp [allBeforeB, Bool.and_eq_true] at h2
        exact h2.2
      show (if (t : Int) < T then
          (multiLoop cerr k' (pre' ++ post) (some T)
            (if err = none ∧ e ≠ none then e else err)).map (fun p => (p.1, p.2 + 1))
        else some (some cerr, 0)) = some (some cerr, pre'.length + 1)
      rw [if_pos ht, ih post k' _ (Nat.lt_of_succ_lt_succ hk) hrest hpost]
      rfl

/-- C5: when the context of a `Multi`-composed step is canceled (at
time `T`) before all composed functions have reported — the events in
`pre` arrive before `T`, those in `post` never arrive before `T` — the
loop returns the context's error having consumed only the `pre`
completions, without waiting for the outstanding ones; with functions
that never return (`pre = post = []`) it returns the context's error
having consumed nothing. -/
theorem Multi_cancel (cerr : GErr) (k : Nat) (T : Int)
    (pre post : List (Nat × Option GErr))
    (hk : pre.length < k) (hpre : allBeforeB T pre = true)
    (hpost : stallHeadB T post = true) :
    multiLoop cerr k (pre ++ post) (some T) none = some (some cerr, pre.length) :=
  multiLoop_cancel_aux cerr T pre post k none hk hpre hpost

/-- Witness for C5: two functions that never return under an
already-expired context — the loop returns the context's error at
once, with zero completions consumed. -/
theorem Multi_cancel_witness :
    multiLoop GErr.canceled 2 [] (some 0) none = some (some GErr.canceled, 0) :=
  Multi_cancel GErr.canceled 2 0 [] [] (by decide) (by decide) (by decide)

theorem startupSend_short_circuit (d : Nat) (e : GErr) (post : List StepSim) :
    ∀ (pre : List StepSim) (now : Nat),
      pre.all (fun s => s.dur.isSome && s.res.isNone) = true →
      ∃ t, startupSend (pre ++ ⟨some d, some e⟩ :: post) now = some (t, some e) := by
  intro pre
  induction pre with
  | nil => intro now _; exact ⟨now + d, rfl⟩
  | cons s pre' ih =>
    intro now hall
    rw [List.all_cons, Bool.and_eq_true] at hall
    obtain ⟨hs, hall'⟩ := hall
    rw [Bool.and_eq_true] at hs
    obtain ⟨d', hd'⟩ := Option.isSome_iff_exists.mp hs.1
    have hr : s.res = none := Option.isNone_iff_eq_none.mp hs.2
    obtain ⟨t, ht⟩ := ih (now + d') hall'
    refine ⟨t, ?_⟩
    show startupSend (s :: (pre' ++ ⟨some d, some e⟩ :: post)) now = some (t, some e)
    rw [startupSend, hd', hr]
    exact ht

theorem startupInvoked_short_circuit (d : Nat) (e : GErr) (post : List StepSim) :
    ∀ pre : List StepSim,
      pre.all (fun s => s.dur.isSome && s.res.isNone) = true →
      startupInvoked (pre ++ ⟨some d, some e⟩ :: post) = pre.length + 1 := by
  intro pre
  induction pre with
  | nil => intro _; rfl
  | cons s pre' ih =>
    intro hall
    rw [List.all_cons, Bool.and_eq_true] at hall
    obtain ⟨hs, hall'⟩ := hall
    rw [Bool.and_eq_true] at hs
    obtain ⟨sdur, sres⟩ := s
    obtain ⟨d', hd'⟩ := Option.isSome_iff_exists.mp hs.1
    have hr : sres = none := Option.isNone_iff_eq_none.mp hs.2
    subst hd'
    subst hr
    show 1 + startupInvoked (pre' ++ ⟨some d, some e⟩ :: post) = pre'.length + 1 + 1
    rw [ih hall']
    omega

/-- C2: with the default configuration, when the startup sequence is a
block of error-free finite steps followed by a step returning the
non-nil error `e`, `Start` invokes exactly the steps up to and
including the erroring one in declaration order (none after it), its
`ErrStartup` is exactly `e`, and the shutdown phase never runs — for
any shutdown steps and any trigger. -/
theorem Start_startup_short_circuit (pre post : List StepSim) (d : Nat) (e : GErr)
    (sd : List SdStep) (trig : Trigger)
    (hpre : pre.all (fun s => s.dur.isSome && s.res.isNone) = true) :
    start (pre ++ ⟨some d, some e⟩ :: post) sd [] trig
      = some ⟨{ errStartup := some e }, pre.length + 1, false⟩ := by
  obtain ⟨t, ht⟩ := startupSend_short_circuit d e post pre 0 hpre
  have hout : startupOutcome 0 (pre ++ ⟨some d, some e⟩ :: post) = some (some e) := by
    simp [startupOutcome, ht]
  have hinv := startupInvoked_short_circuit d e post pre hpre
  simp [start, parseOptions, hout, hinv]

/-- Witness for C2: the second of three startup steps fails; only two
steps run, the error is recorded, shutdown does not run. -/
theorem Start_startup_short_circuit_witness :
    start [⟨some 1, none⟩, ⟨some 2, some (GErr.user 7)⟩, ⟨some 1, none⟩]
        [⟨some 1, some (GErr.user 9)⟩] [] (Trigger.runtime none)
      = some ⟨{ errStartup := some (GErr.user 7) }, 2, false⟩ :=
  Start_startup_short_circuit [⟨some 1, none⟩] [⟨some 1, none⟩] 2 (GErr.user 7)
    [⟨some 1, some (GErr.user 9)⟩] (Trigger.runtime none) (by decide)

/-- C8: resolving a startup- or shutdown-timeout option with a zero or
negative duration fails with the corresponding validation error,
resolving one whose payload is not a duration fails with a cast error,
and whenever option resolution fails `Start` returns that error as the
startup error with no startup step invoked and no shutdown phase
run. -/
theorem parseOptions_validation :
    (∀ (cfg : Config) (rest : List option) (v : Int), v < 1 →
        parseOptions cfg (⟨optionStartupTimeout, Payload.dur v⟩ :: rest)
          = .error (.msg "startup timeout must be positive"))
    ∧ (∀ (cfg : Config) (rest : List option) (v : Int), v < 1 →
        parseOptions cfg (⟨optionShutdownTimeout, Payload.dur v⟩ :: rest)
          = .error (.msg "shutdown timeout must be positive"))
    ∧ (∀ (cfg : Config) (rest : List option) (p : Payload), (∀ v, p ≠ Payload.dur v) →
        parseOptions cfg (⟨optionStartupTimeout, p⟩ :: rest)
          = .error (.msg "failed to cast StartupTimeout to time.Duration"))
    ∧ (∀ (cfg : Config) (rest : List option) (p : Payload), (∀ v, p ≠ Payload.dur v) →
        parseOptions cfg (⟨optionShutdownTimeout, p⟩ :: rest)
          = .error (.msg "failed to cast StartupTimeout to time.Duration"))
    ∧ (∀ (sfns : List StepSim) (sdfns : List SdStep) (opts : List option)
        (trig : Trigger) (e : GErr),
        parseOptions { signals := defaultSignals } opts = .error e →
        start sfns sdfns opts trig = some ⟨{ errStartup := some e }, 0, false⟩) := by
  refine ⟨?_, ?_, ?_, ?_, ?_⟩
  · intro cfg rest v hv
    simp [parseOptions, optionStartupTimeout, hv]
  · intro cfg rest v hv
    simp [parseOptions, optionStartupTimeout, optionShutdownTimeout, hv]
  · intro cfg rest p hp
    cases p with
    | dur v => exact absurd rfl (hp v)
    | sigs s => simp [parseOptions, optionStartupTimeout]
    | other => simp [parseOptions, optionStartupTimeout]
  · intro cfg rest p hp
    cases p with
    | dur v => exact absurd rfl (hp v)
    | sigs s => simp [parseOptions, optionStartupTimeout, optionShutdownTimeout]
    | other => simp [parseOptions, optionStartupTimeout, optionShutdownTimeout]
  · intro sfns sdfns opts trig e hp
    simp [start, hp]

/-- Witness for C8: each failure mode at a concrete option list, and a
`Start` run whose startup error is the resolution error with zero
steps invoked. -/
theorem parseOptions_validation_witness :
    parseOptions { signals := defaultSignals } [⟨1, Payload.dur 0⟩]
      = .error (.msg "startup timeout must be positive")
    ∧ parseOptions { signals := defaultSignals } [⟨2, Payload.dur (-3)⟩]
      = .error (.msg "shutdown timeout must be positive")
    ∧ parseOptions { signals := defaultSignals } [⟨1, Payload.other⟩]
      = .error (.msg "failed to cast StartupTimeout to time.Duration")
    ∧ parseOptions { signals := defaultSignals } [⟨2, Payload.other⟩]
      = .error (.msg "failed to cast StartupTimeout to time.Duration")
    ∧ start [⟨some 1, none⟩] [⟨some 1, none⟩] [⟨1, Payload.dur 0⟩] (Trigger.runtime none)
      = some ⟨{ errStartup := some (.msg "startup timeout must be positive") }, 0, false⟩ :=
  ⟨parseOptions_validation.1 _ _ 0 (by decide),
   parseOptions_validation.2.1 _ _ (-3) (by decide),
   parseOptions_validation.2.2.1 _ _ Payload.other (fun v h => nomatch h),
   parseOptions_validation.2.2.2.1 _ _ Payload.other (fun v h => nomatch h),
   parseOptions_validation.2.2.2.2 _ _ _ _ _ rfl⟩

/-- C7 counterexample: when the trigger is a runtime shutdown request
carrying a nil error, `start` returns an ExitReason with no startup
error and with neither `OsSignal` nor `ErrRuntime` set, which violates
the claimed "exactly one of osSignal or runtimeError is set"
invariant. -/
theorem exit_invariant_counterexample :
    start [] [] [] (Trigger.runtime none) = some ⟨⟨none, none, none, []⟩, 0, true⟩
    ∧ exitClaimB ⟨none, none, none, []⟩ = false := by
  constructor
  · rfl
  · rfl

/-- C7 (amended): every ExitReason returned by `start` satisfies
exactly one of: (a) a non-nil startup error with the signal, runtime
error and shutdown list all empty; or (b) no startup error and at most
one of `OsSignal`, `ErrRuntime` non-nil (both may be nil when a runtime
shutdown request carried a nil error), with zero or more shutdown
errors. The two branches are mutually exclusive on `ErrStartup`. -/
theorem Start_exit_invariant (sfns : List StepSim) (sdfns : List SdStep)
    (opts : List option) (trig : Trigger) (o : StartOutcome)
    (h : start sfns sdfns opts trig = some o) :
    (o.er.errStartup ≠ none ∧ o.er.osSignal = none ∧ o.er.errRuntime = none
        ∧ o.er.errsShutdown = [])
    ∨ (o.er.errStartup = none ∧ (o.er.osSignal = none ∨ o.er.errRuntime = none)) := by
  cases hp : parseOptions { signals := defaultSignals } opts with
  | error e =>
    simp only [start, hp] at h
    obtain rfl : (⟨{ errStartup := some e }, 0, false⟩ : StartOutcome) = o :=
      Option.some.inj h
    exact Or.inl ⟨by simp, rfl, rfl, rfl⟩
  | ok cfg =>
    simp only [start, hp] at h
    cases hs : startupOutcome cfg.startupTimeout sfns with
    | none => rw [hs] at h; exact absurd h (by simp)
    | some r =>
      rw [hs] at h
      cases r with
      | some e =>
        obtain rfl : (⟨{ errStartup := some e }, startupInvoked sfns, false⟩
            : StartOutcome) = o := Option.some.inj h
        exact Or.inl ⟨by simp, rfl, rfl, rfl⟩
      | none =>
        cases hc : shutdownPhase sdfns cfg.shutdownTimeout with
        | none =>
          rw [hc] at h
          cases trig <;> exact absurd h (by simp)
        | some errs =>
          rw [hc] at h
          cases trig with
          | osSig s =>
            obtain rfl : (⟨{ osSignal := some s, errsShutdown := errs },
                startupInvoked sfns, true⟩ : StartOutcome) = o := Option.some.inj h
            exact Or.inr ⟨rfl, Or.inr rfl⟩
          | runtime e =>
            obtain rfl : (⟨{ errRuntime := e, errsShutdown := errs },
                startupInvoked sfns, true⟩ : StartOutcome) = o := Option.some.inj h
            exact Or.inr ⟨rfl, Or.inl rfl⟩

/-- Witness for C7 (amended) at a concrete run triggered by SIGTERM:
branch (b) holds — no startup error and the runtime error empty. -/
theorem Start_exit_invariant_witness :
    ((StartOutcome.mk ⟨some Sig.sigterm, none, none, []⟩ 0 true).er.errStartup ≠ none
        ∧ (StartOutcome.mk ⟨some Sig.sigterm, none, none, []⟩ 0 true).er.osSignal = none
        ∧ (StartOutcome.mk ⟨some Sig.sigterm, none, none, []⟩ 0 true).er.errRuntime = none
        ∧ (StartOutcome.mk ⟨some Sig.sigterm, none, none, []⟩ 0 true).er.errsShutdown = [])
    ∨ ((StartOutcome.mk ⟨some Sig.sigterm, none, none, []⟩ 0 true).er.errStartup = none
        ∧ ((StartOutcome.mk ⟨some Sig.sigterm, none, none, []⟩ 0 true).er.osSignal = none
            ∨ (StartOutcome.mk ⟨some Sig.sigterm, none, none, []⟩ 0 true).er.errRuntime
                = none)) :=
  Start_exit_invariant [] [] [] (Trigger.osSig Sig.sigterm) _ rfl

theorem collectShutdown_all_isSome :
    ∀ (m : Nat) (trace : List (Nat × Option GErr)) (T : Int)
      (acc l : List (Option GErr)),
      (∀ e ∈ acc, e.isSome) → collectShutdown m trace T acc = some l →
      ∀ e ∈ l, e.isSome := by
  intro m
  induction m with
  | zero =>
    intro trace T acc l hacc h
    obtain rfl : acc = l := Option.some.inj h
    exact hacc
  | succ m' ih =>
    intro trace T acc l hacc h
    have haccdl : ∀ e ∈ acc ++ [some GErr.deadlineExceeded], e.isSome := by
      intro e he
      rcases List.mem_append.mp he with h1 | h1
      · exact hacc e h1
      · rw [List.mem_singleton.mp h1]; rfl
    cases trace with
    | nil =>
      by_cases hT : 0 < T
      · rw [collectShutdown, if_pos hT] at h
        obtain rfl := Option.some.inj h
        exact haccdl
      · rw [collectShutdown, if_neg hT] at h
        exact absurd h (by simp)
    | cons ev rest =>
      obtain ⟨t, e0⟩ := ev
      by_cases hc : 0 < T ∧ T ≤ (t : Int)
      · rw [collectShutdown, if_pos hc] at h
        obtain rfl := Option.some.inj h
        exact haccdl
      · rw [collectShutdown, if_neg hc] at h
        refine ih rest T _ l ?_ h
        intro e he
        by_cases he0 : e0.isSome
        · rw [if_pos he0] at he
          rcases List.mem_append.mp he with h1 | h1
          · exact hacc e h1
          · rw [List.mem_singleton.mp h1]; exact he0
        · rw [if_neg he0] at he
          exact hacc e he

theorem renderErrs_isSome :
    ∀ l : List (Option GErr), (∀ e ∈ l, e.isSome) → (renderErrs l).isSome = true := by
  intro l
  induction l with
  | nil => intro _; rfl
  | cons e rest ih =>
    intro h
    obtain ⟨x, hx⟩ := Option.isSome_iff_exists.mp (h e (List.mem_cons_self e rest))
    have hrest := ih (fun e' he' => h e' (List.mem_cons_of_mem _ he'))
    obtain ⟨l', hl'⟩ := Option.isSome_iff_exists.mp hrest
    simp [renderErrs, hx, hl']

/-- C10: every element of the `ErrsShutdown` list of an ExitReason
returned by `start` is a non-nil error (nil step results are filtered
out and the only other appended value is the non-nil deadline error),
so rendering it through `ToPrintable` succeeds — no nil error is ever
dereferenced. -/
theorem Start_shutdown_errors_not_nil (sfns : List StepSim) (sdfns : List SdStep)
    (opts : List option) (trig : Trigger) (o : StartOutcome)
    (h : start sfns sdfns opts trig = some o) :
    (∀ e ∈ o.er.errsShutdown, e.isSome) ∧ (ToPrintable o.er).isSome = true := by
  have hmem : ∀ e ∈ o.er.errsShutdown, e.isSome := by
    cases hp : parseOptions { signals := defaultSignals } opts with
    | error e =>
      simp only [start, hp] at h
      obtain rfl := Option.some.inj h
      intro e he
      exact absurd he (by simp)
    | ok cfg =>
      simp only [start, hp] at h
      cases hs : startupOutcome cfg.startupTimeout sfns with
      | none => rw [hs] at h; exact absurd h (by simp)
      | some r =>
        rw [hs] at h
        cases r with
        | some e =>
          obtain rfl := Option.some.inj h
          intro e he
          exact absurd he (by simp)
        | none =>
          cases hc : shutdownPhase sdfns cfg.shutdownTimeout with
          | none =>
            rw [hc] at h
            cases trig <;> exact absurd h (by simp)
          | some errs =>
            rw [hc] at h
            have hall : ∀ e ∈ errs, e.isSome :=
              collectShutdown_all_isSome sdfns.length (workerTrace sdfns 0)
                cfg.shutdownTimeout [] errs (by simp) hc
            cases trig with
            | osSig s =>
              obtain rfl := Option.some.inj h
              exact hall
            | runtime e =>
              obtain rfl := Option.some.inj h
              exact hall
  refine ⟨hmem, ?_⟩
  obtain ⟨l, hl⟩ := Option.isSome_iff_exists.mp (renderErrs_isSome _ hmem)
  simp [ToPrintable, hl]

/-- Witness for C10: a run with one failing shutdown step — the
collected list holds the one non-nil error and rendering succeeds. -/
theorem Start_shutdown_errors_not_nil_witness :
    (∀ e ∈ (ExitReason.mk none none none [some (GErr.user 1)]).errsShutdown, e.isSome)
    ∧ (ToPrintable (ExitReason.mk none none none [some (GErr.user 1)])).isSome = true :=
  Start_shutdown_errors_not_nil [] [⟨some 1, some (GErr.user 1)⟩] []
    (Trigger.runtime none) ⟨⟨none, none, none, [some (GErr.user 1)]⟩, 0, true⟩ rfl

theorem collectShutdown_timeout_aux (T : Int) (hT : 0 < T) :
    ∀ (pre rest : List SdStep) (now : Nat) (acc : List (Option GErr)),
      reportsBeforeB now T pre = true → stallsB (now + durSum pre) T rest = true →
      collectShutdown (pre.length + rest.length) (workerTrace (pre ++ rest) now) T acc
        = some (acc ++ pre.map (fun s => s.res) ++ [some GErr.deadlineExceeded]) := by
  intro pre
  induction pre with
  | nil =>
    intro rest now acc _ hstall
    rw [durSum, Nat.add_zero] at hstall
    rw [List.length_nil, Nat.zero_add, List.nil_append]
    cases rest with
    | nil => exact absurd hstall (by simp [stallsB])
    | cons s rest' =>
      obtain ⟨sdur, sres⟩ := s
      cases sdur with
      | none =>
        show collectShutdown (rest'.length + 1) [] T acc = _
        rw [collectShutdown, if_pos hT]
        simp
      | some d =>
        have hle : T ≤ ((now + d : Nat) : Int) := by
          simpa [stallsB] using hstall
        show collectShutdown (rest'.length + 1)
            ((now + d, sres) :: workerTrace rest' (now + d)) T acc = _
        rw [collectShutdown, if_pos ⟨hT, hle⟩]
        simp
  | cons p pre' ih =>
    intro rest now acc hrep hstall
    obtain ⟨pdur, pres⟩ := p
    cases pdur with
    | none => exact absurd hrep (by simp [reportsBeforeB])
    | some d =>
      cases pres with
      | none => exact absurd hrep (by simp [reportsBeforeB])
      | some e =>
        have hrep2 : (((now + d : Nat) : Int) < T) ∧ reportsBeforeB (now + d) T pre' = true := by
          simpa [reportsBeforeB, Bool.and_eq_true] using hrep
        have hstall2 : stallsB (now + d + durSum pre') T rest = true := by
          have : now + (d + durSum pre') = now + d + durSum pre' := by omega
          simpa [durSum, this] using hstall
        have hnot : ¬(0 < T ∧ T ≤ ((now + d : Nat) : Int)) := by
          intro hx
          exact absurd hx.2 (not_le.mpr hrep2.1)
        have hlen : (pre'.length + 1) + rest.length = pre'.length + rest.length + 1 := by
          omega
        show collectShutdown (pre'.length + 1 + rest.length)
            ((now + d, some e) :: workerTrace (pre' ++ rest) (now + d)) T acc = _
        rw [hlen, collectShutdown, if_neg hnot]
        simp only [Option.isSome_some, if_true]
        rw [ih rest (now + d) (acc ++ [some e]) hrep2.2 hstall2]
        simp

/-- C3: when the first `J` shutdown steps (`pre`) each report a non-nil
error strictly before the shutdown deadline `T` and the next step
(`rest` is nonempty) hangs or completes no earlier than `T`, the
collection loop stops at the timeout without waiting for the
outstanding steps: `ErrsShutdown` is exactly the `J` step errors in
receipt order followed by exactly one deadline error. -/
theorem Start_shutdown_timeout_truncates (pre rest : List SdStep) (T : Int)
    (hT : 0 < T) (hrep : reportsBeforeB 0 T pre = true)
    (hstall : stallsB (durSum pre) T rest = true) :
    shutdownPhase (pre ++ rest) T
      = some (pre.map (fun s => s.res) ++ [some GErr.deadlineExceeded]) := by
  have h := collectShutdown_timeout_aux T hT pre rest 0 [] hrep (by simpa using hstall)
  rw [shutdownPhase, List.length_append]
  simpa using h

/-- Witness for C3: one step fails at time 1 under deadline 5, the
second never returns — the result is that error then the deadline
error. -/
theorem Start_shutdown_timeout_truncates_witness :
    shutdownPhase ([⟨some 1, some (GErr.user 1)⟩] ++ [⟨none, none⟩]) 5
      = some [some (GErr.user 1), some GErr.deadlineExceeded] :=
  Start_shutdown_timeout_truncates [⟨some 1, some (GErr.user 1)⟩] [⟨none, none⟩] 5
    (by decide) (by decide) (by decide)

/-- C1 counterexample: two shutdown steps that each take 3 time units,
each failing, under a shutdown deadline of 4. Run concurrently — as the
claim states, one background worker per step — both would complete at
time 3 < 4 and both errors would be collected (in either receipt
order). The code's single sequential worker finishes the second step at
time 6 ≥ 4, so `Start` instead records the first error followed by a
deadline error. -/
theorem shutdown_not_concurrent_counterexample :
    shutdownPhase [⟨some 3, some (GErr.user 1)⟩, ⟨some 3, some (GErr.user 2)⟩] 4
      = some [some (GErr.user 1), some GErr.deadlineExceeded]
    ∧ concurrentShutdownSpec [⟨some 3, some (GErr.user 1)⟩, ⟨some 3, some (GErr.user 2)⟩]
        4 [0, 1] = some [some (GErr.user 1), some (GErr.user 2)]
    ∧ concurrentShutdownSpec [⟨some 3, some (GErr.user 1)⟩, ⟨some 3, some (GErr.user 2)⟩]
        4 [1, 0] = some [some (GErr.user 2), some (GErr.user 1)] := by
  refine ⟨?_, ?_, ?_⟩ <;> rfl

theorem collectShutdown_runsAll_aux (T : Int) :
    ∀ (steps : List SdStep) (now : Nat) (acc : List (Option GErr)),
      runsAllB now T steps = true →
      collectShutdown steps.length (workerTrace steps now) T acc
        = some (acc ++ (steps.map (fun s => s.res)).filter (fun e => e.isSome)) := by
  intro steps
  induction steps with
  | nil => intro now acc _; simp [collectShutdown, workerTrace]
  | cons s rest ih =>
    intro now acc hall
    obtain ⟨sdur, sres⟩ := s
    cases sdur with
    | none => exact absurd hall (by simp [runsAllB])
    | some d =>
      have hall2 : ((T ≤ 0) ∨ ((now + d : Nat) : Int) < T)
          ∧ runsAllB (now + d) T rest = true := by
        simpa [runsAllB, Bool.and_eq_true, Bool.or_eq_true] using hall
      have hnot : ¬(0 < T ∧ T ≤ ((now + d : Nat) : Int)) := by
        intro hx
        rcases hall2.1 with h1 | h1
        · exact absurd hx.1 (not_lt.mpr h1)
        · exact absurd hx.2 (not_le.mpr h1)
      show collectShutdown (rest.length + 1)
          ((now + d, sres) :: workerTrace rest (now + d)) T acc = _
      rw [collectShutdown, if_neg hnot]
      cases sres with
      | some x =>
        simp only [Option.isSome_some, if_true]
        rw [ih (now + d) (acc ++ [some x]) hall2.2]
        simp
      | none =>
        simp only [Option.isSome_none, Bool.false_eq_true, if_false]
        rw [ih (now + d) acc hall2.2]
        simp

/-- C1 (amended): during `RunningShutdown`, `Start` executes the
shutdown steps sequentially, in declaration order, in a single
background worker, and transitions to `Done` only after observing
exactly `len(shutdownSteps)` completions or the shutdown timeout,
whichever comes first: when every step completes (before the deadline
when one is set) the result is the steps' non-nil errors in declaration
order after all completions; when the deadline interrupts the
sequential worker the already-received errors are followed by exactly
one deadline error. -/
theorem Start_sequential_shutdown :
    (∀ (steps : List SdStep) (T : Int), runsAllB 0 T steps = true →
        shutdownPhase steps T
          = some ((steps.map (fun s => s.res)).filter (fun e => e.isSome)))
    ∧ (∀ (pre rest : List SdStep) (T : Int), 0 < T →
        reportsBeforeB 0 T pre = true → stallsB (durSum pre) T rest = true →
        shutdownPhase (pre ++ rest) T
          = some (pre.map (fun s => s.res) ++ [some GErr.deadlineExceeded])) := by
  constructor
  · intro steps T h
    rw [shutdownPhase]
    exact (collectShutdown_runsAll_aux T steps 0 [] h).trans (by simp)
  · intro pre rest T hT hrep hstall
    have h := collectShutdown_timeout_aux T hT pre rest 0 [] hrep (by simpa using hstall)
    rw [shutdownPhase, List.length_append]
    simpa using h

/-- Witness for C1 (amended): a failing and a succeeding step all
completing in time yield the declaration-order error list, and a
failing step followed by a hanging one under a deadline yields that
error then the deadline error. -/
theorem Start_sequential_shutdown_witness :
    shutdownPhase [⟨some 1, some (GErr.user 1)⟩, ⟨some 1, none⟩] 0
      = some [some (GErr.user 1)]
    ∧ shutdownPhase ([⟨some 1, some (GErr.user 1)⟩] ++ [⟨none, none⟩]) 5
      = some [some (GErr.user 1), some GErr.deadlineExceeded] :=
  ⟨Start_sequential_shutdown.1 [⟨some 1, some (GErr.user 1)⟩, ⟨some 1, none⟩] 0 (by decide),
   Start_sequential_shutdown.2 [⟨some 1, some (GErr.user 1)⟩] [⟨none, none⟩] 5
     (by decide) (by decide) (by decide)⟩

end Graceful
